import Mathlib

/-!
# Verification of the baras combat-log pipeline

A shallow embedding of the parts of the `baras-macos` repository that the
specification's claims are about:

* the line parser (`src/parser.rs`): `parse_timestamp`, `parse_entity`,
  `parse_entity_name_id`, `parse_line`, `parse_log_file`;
* the overlay bridge's metric fan-out (`app/src-tauri/src/bridge.rs`) and the
  meter-entry construction (`app/src-tauri/src/overlay/metrics.rs`);
* the string interner wrappers (`core/src/context/interner.rs`);
* the overlay progress-bar widget (`overlay/src/widgets/progress_bar.rs`).

Rust byte slices are modelled as `List Nat` (each element a byte value);
machine-integer arithmetic is carried out on `Nat`/`Int` with explicit
`% 2^w` wrapping where the source relies on fixed-width behaviour.
-/

set_option autoImplicit false

namespace Baras

/-- A byte string: the parser works on `&[u8]` (via `as_bytes` /
`from_utf8_unchecked`), so strings are lists of byte values. -/
abbrev Str := List Nat

/-- Byte values of a Lean string literal (used only to build concrete test
inputs; all inputs in this file are ASCII, where chars and bytes coincide). -/
def strBytes (s : String) : Str := s.data.map Char.toNat

/-! ## Data model (`src/event_models.rs`) -/

/-- Model of `EntityType` from `event_models.rs`; `Empty` is the `#[default]` variant. -/
inductive EntityType where
  | Player
  | Npc
  | Companion
  | Empty
  deriving DecidableEq, Repr

/-- Model of `Timestamp` from `event_models.rs`: `hour`, `minute`, `second` are `u8`,
`millis` is `u16`; modelled as `Nat` (the parser's wrapping arithmetic is made
explicit with `% 256` / `% 65536`). -/
structure Timestamp where
  hour : Nat
  minute : Nat
  second : Nat
  millis : Nat
  deriving DecidableEq, Repr

/-- The `Default` value of `Timestamp` (all numeric fields zero). -/
def Timestamp.default : Timestamp := ⟨0, 0, 0, 0⟩

/-- A model of Rust `f64` values as used by the overlay widgets: a finite
value carried exactly as a rational, the two infinities, and NaN.  Finite
arithmetic is modelled exactly (rounding is not modelled; the only claims
proved about floats concern comparisons and `clamp`, which are exact). -/
inductive F64 where
  | finite (q : ℚ)
  | inf
  | neginf
  | nan
  deriving DecidableEq, Repr

/-- Model of `Entity` from `event_models.rs`. -/
structure Entity where
  name : Str
  class_id : Int
  log_id : Int
  entity_type : EntityType
  coordinates : Option Str
  health : Option (Int × Int)
  deriving DecidableEq, Repr

/-- The `Default` value of `Entity`: empty name, zero ids, `Empty` kind. -/
def Entity.default : Entity := ⟨[], 0, 0, EntityType.Empty, none, none⟩

/-- Model of `CombatEvent` from `event_models.rs`, all fields included. -/
structure CombatEvent where
  line_number : Nat
  timestamp : Timestamp
  source_entity : Entity
  target_entity_id : Option Str
  target_entity_type : Option EntityType
  target_entity_name : Option Str
  target_coordinates : Option Str
  target_health : Option Int
  target_max_health : Option Int
  action_id : Option Str
  action_name : Option Str
  effect_type_id : Option Str
  effect_type_name : Option Str
  effect_id : Option Str
  effect_name : Option Str
  charges : Option Int
  damage : Option Int
  effective_damage : Option Int
  damage_type_id : Option Str
  is_critical : Option Bool
  is_reflected : Option Bool
  threat : Option F64
  reduction_class_id : Option Str
  damage_reduced : Option Str
  reduction_type_id : Option Str
  heal : Option Int
  effective_heal : Option Int
  deriving DecidableEq, Repr

/-- The `Default` value of `CombatEvent`: zero line number, default timestamp
and source entity, every optional field `None`. -/
def CombatEvent.default : CombatEvent where
  line_number := 0
  timestamp := Timestamp.default
  source_entity := Entity.default
  target_entity_id := none
  target_entity_type := none
  target_entity_name := none
  target_coordinates := none
  target_health := none
  target_max_health := none
  action_id := none
  action_name := none
  effect_type_id := none
  effect_type_name := none
  effect_id := none
  effect_name := none
  charges := none
  damage := none
  effective_damage := none
  damage_type_id := none
  is_critical := none
  is_reflected := none
  threat := none
  reduction_class_id := none
  damage_reduced := none
  reduction_type_id := none
  heal := none
  effective_heal := none

/-! ## Byte-level helpers -/

/-- Model of `memchr(needle, bytes)`: index of the first occurrence of a byte. -/
def findByte (c : Nat) : Str → Option Nat
  | [] => none
  | b :: bs => if b = c then some 0 else (findByte c bs).map (· + 1)

/-- Rust slice `&s[a..b]` (total model: out-of-range indices truncate, where
the source would panic; no claim below exercises a panicking index). -/
def slice (s : Str) (a b : Nat) : Str := (s.take b).drop a

/-- Wrapping `u8` subtraction `a - b` (both arguments reduced to byte range). -/
def wsub8 (a b : Nat) : Nat := (a % 256 + 256 - b % 256) % 256

/-- Tests whether `b` is an ASCII decimal digit. -/
def isDigit (b : Nat) : Bool := 48 ≤ b && b ≤ 57

/-- Numeric value of a digit string (most significant first). -/
def digitsToNat (ds : Str) : Nat := ds.foldl (fun acc d => acc * 10 + (d - 48)) 0

/-- Rust `str::parse::<i64>()`: optional sign, at least one digit, nothing
else, result within `i64` range; any failure is `none`. -/
def parseI64option (s : Str) : Option Int :=
  match s with
  | [] => none
  | b :: rest =>
    let ds : Str := if b = 45 ∨ b = 43 then rest else s
    let neg : Bool := b = 45
    if ds.isEmpty || !ds.all isDigit then none
    else
      let v : Nat := digitsToNat ds
      if neg then
        if v ≤ 2 ^ 63 then some (-(v : Int)) else none
      else
        if v ≤ 2 ^ 63 - 1 then some (v : Int) else none

/-- The `parse_i64!` macro of `parser.rs`: `parse::<i64>().unwrap_or_default()`
— a failed parse yields `0`. -/
def parse_i64 (s : Str) : Int := (parseI64option s).getD 0

/-! ## Line parser (`src/parser.rs`) -/

/-- Model of `parse_timestamp`: requires at least 14 bytes with `[`, `:`, `:`, `.`, `]`
at positions 0, 3, 6, 9, 13; the digit positions are *not* validated, their
bytes are combined with wrapping `u8`/`u16` arithmetic exactly as in the
source (`(b[i] - b'0') * 10 + ...`). -/
def parse_timestamp (input : Str) : Option (Str × Timestamp) :=
  if input.length < 14 ∨ input.getD 0 0 ≠ 91 ∨ input.getD 3 0 ≠ 58 ∨ input.getD 6 0 ≠ 58 ∨
      input.getD 9 0 ≠ 46 ∨ input.getD 13 0 ≠ 93 then
    none
  else
    some (input.drop 14,
      { hour := (wsub8 (input.getD 1 0) 48 * 10 + wsub8 (input.getD 2 0) 48) % 256
        minute := (wsub8 (input.getD 4 0) 48 * 10 + wsub8 (input.getD 5 0) 48) % 256
        second := (wsub8 (input.getD 7 0) 48 * 10 + wsub8 (input.getD 8 0) 48) % 256
        millis := (wsub8 (input.getD 10 0) 48 * 100 + wsub8 (input.getD 11 0) 48 * 10 +
          wsub8 (input.getD 12 0) 48) % 65536 })

/-- ASCII whitespace, for Rust `str::trim` on the NPC name. -/
def isWs (b : Nat) : Bool := b = 32 || b = 9 || b = 10 || b = 13 || b = 11 || b = 12

/-- Rust `str::trim` (restricted to ASCII whitespace, which is all that occurs
in log entity names). -/
def trimWs (s : Str) : Str := (s.dropWhile isWs).reverse.dropWhile isWs |>.reverse

/-- Model of `parse_entity_name_id`: distinguishes Player / Companion / Npc by the
positions of `#`, `/`, `{`, `}` found by single-byte search, mirroring the
source's three return paths (a missing required delimiter, `?` in the source,
yields `none`). -/
def parse_entity_name_id (input : Str) : Option (Str × Int × Int × EntityType) :=
  match findByte 35 input with
  | some nd =>
    match findByte 47 input with
    | none =>
      some (slice input 1 nd, 0, parse_i64 (input.drop (nd + 1)), EntityType.Player)
    | some cd =>
      match findByte 123 input, findByte 125 input with
      | some sb, some eb =>
        some (slice input (cd + 1) (sb - 1),
          parse_i64 (slice input (sb + 1) eb),
          parse_i64 (input.drop (eb + 2)),
          EntityType.Companion)
      | _, _ => none
  | none =>
    match findByte 123 input, findByte 125 input with
    | some sb, some eb =>
      some (trimWs (input.take sb),
        parse_i64 (slice input (sb + 1) eb),
        parse_i64 (input.drop (eb + 2)),
        EntityType.Npc)
    | _, _ => none

/-- Model of `parse_entity`: finds the closing `]`; `]` at offset 1 is the Empty
sentinel (consume both bytes), a `=` at offset 1 is the no-entity sentinel
(consume only the leading byte); otherwise the name segment runs from offset 2
to the first `|`.  The source reads `bytes[1]` unconditionally (panicking on a
1-byte input); the model reads it with default 0 — no claim exercises that
input. -/
def parse_entity (input : Str) : Option (Str × Entity) :=
  match findByte 93 input with
  | none => none
  | some delim_pos =>
    if delim_pos = 1 then
      some (input.drop 2, Entity.default)
    else if input.getD 1 0 = 61 then
      some (input.drop 1, Entity.default)
    else
      match findByte 124 input with
      | none => none
      | some first_pipe =>
        match parse_entity_name_id (slice input 2 first_pipe) with
        | none => none
        | some (name, class_id, log_id, entity_type) =>
          some (input.drop first_pipe,
            { Entity.default with
                name := name
                class_id := class_id
                log_id := log_id
                entity_type := entity_type })

/-- Model of `parse_line`: timestamp, then source entity; everything else of the event
is left at its default. -/
def parse_line (line_number : Nat) (line : Str) : Option CombatEvent :=
  match parse_timestamp line with
  | none => none
  | some (remaining, ts) =>
    match parse_entity remaining with
    | none => none
    | some (_, source_entity) =>
      some { CombatEvent.default with
              line_number := line_number
              timestamp := ts
              source_entity := source_entity }

/-- Split a byte string at every newline (byte 10), keeping empty segments:
the segment list that `memchr_iter(b'\n', ..)` walks over. -/
def splitLines : Str → List Str
  | [] => [[]]
  | b :: bs =>
    if b = 10 then [] :: splitLines bs
    else
      match splitLines bs with
      | [] => [[b]]
      | l :: ls => (b :: l) :: ls

/-- The `line_ranges` of `parse_log_file`: the loop pushes `(start, end)` only
when `end > start` and the trailing range only when `start < len`, i.e. it
keeps exactly the non-empty maximal newline-free segments. -/
def nonEmptyLines (bytes : Str) : List Str :=
  (splitLines bytes).filter (fun l => !l.isEmpty)

/-- Model of `parse_log_file` (pure part, after the file is mapped into `bytes`):
enumerate the non-empty line ranges and `filter_map` them through
`parse_line(idx + 1, line)`; rayon's indexed `collect` preserves order, so the
parallel loop is modelled sequentially. -/
def parse_log_file (bytes : Str) : List CombatEvent :=
  (nonEmptyLines bytes).enum.filterMap (fun p => parse_line (p.1 + 1) p.2)

/-- The numbering described by the spec sentence behind claim C4, for
comparison with `parse_log_file`: events are numbered by their 1-based
position among *all* newline-delimited lines of the file, counting blank
lines and lines whose parse fails. -/
def parse_log_file_claimed (bytes : Str) : List CombatEvent :=
  (splitLines bytes).enum.filterMap (fun p => parse_line (p.1 + 1) p.2)

/-! ## Overlay metric entries (`app/src-tauri/src/overlay/metrics.rs`)

The snapshot lacks `overlay/types.rs` (declaring `MetricType`) and the
`MeterEntry::new` / `with_color` constructors; those are modelled from the
spec (§4.7): the metric kinds are DPS, EDPS, HPS, EHPS, TPS, DTPS, EDTPS,
ABS, and the emitted rendering entry carries name, value, the kind-specific
max value and the kind's bar color. -/

/-- Modelled from the spec: `MetricType` (declared in the missing
`overlay/types.rs`), the enumeration of metric overlay kinds. -/
inductive MetricType where
  | Dps
  | EDps
  | Hps
  | EHps
  | Tps
  | Dtps
  | EDtps
  | Abs
  deriving DecidableEq, Repr

/-- Modelled from the spec: a bar color; the spec fixes no RGB values, only
that each entry is "tagged with the kind's bar color", so a color is
identified by the kind it belongs to. -/
structure BarColor where
  kind : MetricType
  deriving DecidableEq, Repr

/-- Modelled from the spec: `MetricType::bar_color` (missing
`overlay/types.rs`) yields the kind's own bar color. -/
def bar_color (t : MetricType) : BarColor := ⟨t⟩

/-- Model of a `PlayerMetrics` snapshot row as read by
`create_entries_for_type`: a name plus one signed-64-bit value per metric
kind (the fields `m.dps`, `m.edps`, ..., `m.abs` that the eight match arms
access). -/
structure PlayerMetrics where
  name : Str
  dps : Int
  edps : Int
  hps : Int
  ehps : Int
  tps : Int
  dtps : Int
  edtps : Int
  abs : Int
  deriving DecidableEq, Repr

/-- Model of `MeterEntry` (`overlay/src/manager.rs`): name, value, max value
and bar color of one meter row. -/
structure MeterEntry where
  name : Str
  value : Int
  max_value : Int
  color : BarColor
  deriving DecidableEq, Repr

/-- Modelled from the spec: `MeterEntry::new(name, value, max_value)` (the
constructor is not in the snapshot) stores its three arguments; the initial
color is the DPS bar color (the widgets' default fill) and is always
overwritten by `with_color` at the only call site. -/
def MeterEntry.new (name : Str) (value max_value : Int) : MeterEntry :=
  ⟨name, value, max_value, ⟨MetricType.Dps⟩⟩

/-- Modelled from the spec: `MeterEntry::with_color` replaces the color. -/
def MeterEntry.with_color (e : MeterEntry) (c : BarColor) : MeterEntry :=
  { e with color := c }

/-- Model of `iter().max().unwrap_or(0)` over `i64` values. -/
def maxOrZero (l : List Int) : Int :=
  match l with
  | [] => 0
  | x :: xs => xs.foldl max x

/-- Descending order used by `values.sort_by(|a, b| b.1.cmp(&a.1))`. -/
def valueDescOrder (a b : Str × Int) : Prop := b.2 < a.2

instance : DecidableRel valueDescOrder := fun a b => inferInstanceAs (Decidable (b.2 < a.2))

/-- The per-kind field selector: which `PlayerMetrics` field each arm of the
`match` in `create_entries_for_type` reads. -/
def metric_value : MetricType → PlayerMetrics → Int
  | MetricType.Dps, m => m.dps
  | MetricType.EDps, m => m.edps
  | MetricType.Hps, m => m.hps
  | MetricType.EHps, m => m.ehps
  | MetricType.Tps, m => m.tps
  | MetricType.Dtps, m => m.dtps
  | MetricType.EDtps, m => m.edtps
  | MetricType.Abs, m => m.abs

/-- Model of `create_entries_for_type`: per kind, pair each row's name with
its value and take `iter().max().unwrap_or(0)` as the max; sort descending by
value (Rust's `sort_by` is stable, modelled by a stable insertion sort); emit
one `MeterEntry` per pair, all carrying the same max and the kind's color. -/
def create_entries_for_type (overlay_type : MetricType) (metrics : List PlayerMetrics) :
    List MeterEntry :=
  let color := bar_color overlay_type
  let vm : List (Str × Int) × Int :=
    match overlay_type with
    | MetricType.Dps =>
      (metrics.map (fun m => (m.name, m.dps)), maxOrZero (metrics.map (fun m => m.dps)))
    | MetricType.EDps =>
      (metrics.map (fun m => (m.name, m.edps)), maxOrZero (metrics.map (fun m => m.edps)))
    | MetricType.Hps =>
      (metrics.map (fun m => (m.name, m.hps)), maxOrZero (metrics.map (fun m => m.hps)))
    | MetricType.EHps =>
      (metrics.map (fun m => (m.name, m.ehps)), maxOrZero (metrics.map (fun m => m.ehps)))
    | MetricType.Tps =>
      (metrics.map (fun m => (m.name, m.tps)), maxOrZero (metrics.map (fun m => m.tps)))
    | MetricType.Dtps =>
      (metrics.map (fun m => (m.name, m.dtps)), maxOrZero (metrics.map (fun m => m.dtps)))
    | MetricType.EDtps =>
      (metrics.map (fun m => (m.name, m.edtps)), maxOrZero (metrics.map (fun m => m.edtps)))
    | MetricType.Abs =>
      (metrics.map (fun m => (m.name, m.abs)), maxOrZero (metrics.map (fun m => m.abs)))
  let values := List.insertionSort valueDescOrder vm.1
  values.map (fun p => (MeterEntry.new p.1 p.2 vm.2).with_color color)

/-! ## Overlay bridge (`app/src-tauri/src/bridge.rs`)

The channel handles come from `SharedOverlayState::get_tx` (missing from the
snapshot); per the spec they are bounded per-overlay command channels.  The
decisive line is in the snapshot: for every running metric overlay the bridge
executes `let _ = tx.send(OverlayCommand::UpdateData(..)).await`, a tokio
bounded-channel *awaiting* send.  One step of that send either enqueues the
message (when the queue is below capacity) or suspends awaiting capacity. -/

/-- Modelled from the spec: the payload of an overlay data update (§6);
claim-relevant is only the `Metrics` variant. -/
inductive OverlayData where
  | Metrics (entries : List MeterEntry)
  | Personal
  deriving DecidableEq, Repr

/-- Modelled from the spec: the per-overlay command channel messages (§6). -/
inductive OverlayCommand where
  | UpdateData (d : OverlayData)
  | SetMoveMode (b : Bool)
  | Shutdown
  deriving DecidableEq, Repr

/-- Outcome of one step of a channel send: either the message was enqueued
and the send completed, or the sender suspended awaiting capacity. -/
inductive SendResult where
  | delivered (queue : List OverlayCommand)
  | pending
  deriving DecidableEq, Repr

/-- One step of tokio's bounded `Sender::send(..).await`: enqueue when the
queue is below capacity, otherwise suspend (the message is neither delivered
nor dropped until capacity frees). -/
def awaitSendStep (cap : Nat) (q : List OverlayCommand) (m : OverlayCommand) : SendResult :=
  if q.length < cap then SendResult.delivered (q ++ [m]) else SendResult.pending

/-- The bridge's per-overlay send for a `MetricsUpdated` update
(`bridge.rs`, the `for (overlay_type, tx) in overlay_txs` loop): an awaiting
send of `UpdateData(Metrics(entries))`. -/
def bridge_metric_send (cap : Nat) (q : List OverlayCommand) (entries : List MeterEntry) :
    SendResult :=
  awaitSendStep cap q (OverlayCommand.UpdateData (OverlayData.Metrics entries))

/-- The behaviour claim C6 describes, written from the spec's words for
comparison: a `try_send` that completes immediately, dropping the message
when the channel is full. -/
def try_send_drop (cap : Nat) (q : List OverlayCommand) (m : OverlayCommand) :
    List OverlayCommand :=
  if q.length < cap then q ++ [m] else q

/-! ## String interner (`core/src/context/interner.rs`)

The wrappers `intern` / `resolve` delegate to `lasso::ThreadedRodeo`, an
external crate.  Modelled from the spec (§4.1): the rodeo is a dictionary
assigning dense keys in order of first insertion; the state is the list of
interned strings, a key is an index into it. -/

/-- Modelled from the spec: dictionary lookup — the key under which a string
was interned, if any. -/
def lookupKey : List Str → Str → Option Nat
  | [], _ => none
  | t :: ts, s => if t = s then some 0 else (lookupKey ts s).map (· + 1)

/-- Modelled from the spec: `ThreadedRodeo::get_or_intern` — return the
existing key, or append the string and return the fresh key. -/
def get_or_intern (st : List Str) (s : Str) : List Str × Nat :=
  match lookupKey st s with
  | some k => (st, k)
  | none => (st ++ [s], st.length)

/-- Model of the repository's `intern` wrapper: delegate to the rodeo's
`get_or_intern` (the process-global state is passed explicitly). -/
def intern (st : List Str) (s : Str) : List Str × Nat := get_or_intern st s

/-- Model of the repository's `resolve` wrapper: look the key up in the
dictionary. -/
def resolve (st : List Str) (k : Nat) : Str := st.getD k []

/-- A sequence of intern calls (arbitrary other strings interleaved between
two interns of the same string). -/
def internAll (st : List Str) : List Str → List Str
  | [] => st
  | s :: ss => internAll (get_or_intern st s).1 ss

/-! ## Progress bar widget (`overlay/src/widgets/progress_bar.rs`) -/

/-- IEEE `<=` on `f64` values: any comparison with NaN is false. -/
def F64.le : F64 → F64 → Bool
  | F64.nan, _ => false
  | _, F64.nan => false
  | F64.neginf, _ => true
  | _, F64.neginf => false
  | _, F64.inf => true
  | F64.inf, _ => false
  | F64.finite a, F64.finite b => decide (a ≤ b)

/-- IEEE division on `f64` values: NaN propagates, `inf/inf` is NaN,
division of a nonzero finite value by zero gives a signed infinity, `0/0` is
NaN; finite-by-finite division is modelled exactly (rounding, overflow and
the sign of zero are not modelled — the quotient only feeds `clamp`, whose
bounds they cannot affect). -/
def F64.div : F64 → F64 → F64
  | F64.nan, _ => F64.nan
  | _, F64.nan => F64.nan
  | F64.inf, F64.inf => F64.nan
  | F64.inf, F64.neginf => F64.nan
  | F64.neginf, F64.inf => F64.nan
  | F64.neginf, F64.neginf => F64.nan
  | F64.inf, F64.finite b => if 0 ≤ b then F64.inf else F64.neginf
  | F64.neginf, F64.finite b => if 0 ≤ b then F64.neginf else F64.inf
  | F64.finite _, F64.inf => F64.finite 0
  | F64.finite _, F64.neginf => F64.finite 0
  | F64.finite a, F64.finite b =>
    if b = 0 then
      if a = 0 then F64.nan else if 0 < a then F64.inf else F64.neginf
    else F64.finite (a / b)

/-- Rust `f64::clamp(0.0, 1.0)`: values below 0 give 0, above 1 give 1, NaN
stays NaN. -/
def F64.clamp01 : F64 → F64
  | F64.nan => F64.nan
  | F64.inf => F64.finite 1
  | F64.neginf => F64.finite 0
  | F64.finite q => F64.finite (min 1 (max 0 q))

/-- Model of `tiny_skia::Color` (premultiplied RGBA); the concrete channel
values never matter for the claims. -/
structure Color where
  r : ℚ
  g : ℚ
  b : ℚ
  a : ℚ
  deriving DecidableEq, Repr

/-- Model of the `ProgressBar` widget struct. -/
structure ProgressBar where
  label : Str
  value : F64
  max_value : F64
  fill_color : Color
  bg_color : Color
  text_color : Color
  show_value : Bool
  deriving DecidableEq, Repr

/-- Model of `ProgressBar::progress`: `0.0` when `max_value <= 0.0`,
otherwise `(value / max_value).clamp(0.0, 1.0)`.  The source casts the result
`as f32`; the cast maps `[0, 1]` into `[0, 1]` and NaN to NaN, so the model
returns the pre-cast value. -/
def ProgressBar.progress (pb : ProgressBar) : F64 :=
  if pb.max_value.le (F64.finite 0) then F64.finite 0
  else (pb.value.div pb.max_value).clamp01

/-- Whether a float value lies in the closed interval `[0, 1]` (false for
NaN and the infinities). -/
def inUnitInterval : F64 → Bool
  | F64.finite q => decide (0 ≤ q ∧ q ≤ 1)
  | _ => false

/-! ## Concrete inputs used by the counterexamples and witnesses -/

/-- The input of claim C1 / spec scenario B. -/
def c1line : String := "[19:02:15.300] [@Alice#100]"

/-- The C1 input with the `|` delimiter the entity parser requires. -/
def c1lineFixed : String := "[19:02:15.300] [@Alice#100|]"

/-- The name carried by the C1 entity. -/
def aliceName : String := "Alice"

/-- A structurally valid timestamp whose digits are out of range. -/
def c2line : String := "[99:99:99.999]"

/-- A well-formed timestamp input, for the C2 witness. -/
def c2goodLine : String := "[19:02:15.300]"

/-- An entity segment with an empty player name and unparsable id. -/
def c3line : String := " [@#x|]"

/-- The remaining input after parsing `c3line`. -/
def c3rem : String := "|]"

/-- A two-event file with a blank line between the events. -/
def c4file : String := "[00:00:00.000] [@A#1|]\n\n[00:00:00.000] [@B#1|]"

/-- A snapshot row whose metric values are all zero. -/
def pm0 : PlayerMetrics := ⟨strBytes "A", 0, 0, 0, 0, 0, 0, 0, 0⟩

/-- An opaque black color value. -/
def black : Color := ⟨0, 0, 0, 1⟩

/-- A progress bar whose value is NaN (max is 1). -/
def pbNan : ProgressBar := ⟨[], F64.nan, F64.finite 1, black, black, black, true⟩

/-- A progress bar with value 1/2 and max 1, for the C9 witness. -/
def pbHalf : ProgressBar := ⟨[], F64.finite (1 / 2), F64.finite 1, black, black, black, true⟩

/-! ## Theorems -/

/-- Claim C2 (counterexample): `parse_timestamp` accepts `"[99:99:99.999]"`
and returns hour 99, which is outside `[0, 23]` — the digit bytes are never
range-checked. -/
theorem C2_counterexample :
    parse_timestamp (strBytes c2line) = some ([], ⟨99, 99, 99, 999⟩) ∧ ¬ (99 ≤ 23) :=
  ⟨rfl, by decide⟩

/-- Claim C1 (counterexample): on the claimed input
`"[19:02:15.300] [@Alice#100]"` the parser returns `none`, not a
`CombatEvent` — `parse_entity` requires a `|` after the name segment. -/
theorem C1_counterexample : parse_line 1 (strBytes c1line) = none := rfl

/-- Claim C1 (amended): on the claimed input `parse_line` returns `none`
(the entity segment lacks the required `|`); with the delimiter added,
`"[19:02:15.300] [@Alice#100|]"`, it returns for every line number `n` the
event with timestamp 19:02:15.300, source entity Alice / Player / log id 100 /
class id 0, and every other field default. -/
theorem C1_amended_theorem : ∀ n : Nat,
    parse_line n (strBytes c1line) = none ∧
    parse_line n (strBytes c1lineFixed) =
      some { CombatEvent.default with
              line_number := n
              timestamp := ⟨19, 2, 15, 300⟩
              source_entity := { Entity.default with
                                  name := strBytes aliceName
                                  log_id := 100
                                  entity_type := EntityType.Player } } :=
  fun _ => ⟨rfl, rfl⟩

/-- Claim C3 (counterexample): `parse_entity` on `" [@#x|]"` produces a
`Player` entity whose name is empty and whose `log_id` is 0 (the id text `x`
fails to parse and defaults to zero). -/
theorem C3_counterexample :
    (parse_entity (strBytes c3line)).map (fun p => (p.2.entity_type, p.2.name, p.2.log_id))
      = some (EntityType.Player, [], 0) := rfl

/-- Claim C10: `parse_entity` consumes the sentinels asymmetrically — for
input `"[]" ++ rest` it returns the default entity with `rest` (offset 2),
while for `"[=]"` followed by at least one byte it returns the default entity
with the remainder starting at the `=` (offset 1). -/
theorem C10_theorem :
    (∀ rest : Str, parse_entity (91 :: 93 :: rest) = some (rest, Entity.default)) ∧
    (∀ (b : Nat) (rest : Str),
      parse_entity (91 :: 61 :: 93 :: b :: rest) = some (61 :: 93 :: b :: rest, Entity.default)) :=
  ⟨fun _ => rfl, fun _ _ => rfl⟩

/-- Claim C7 (counterexample): with a single all-zero snapshot row, the DPS
overlay emits one entry whose `max_value` is 0 — the code takes
`iter().max().unwrap_or(0)` with no lower bound of 1. -/
theorem C7_counterexample :
    (create_entries_for_type MetricType.Dps [pm0]).map (fun e => e.max_value) = [0] ∧
    ¬ ((1 : Int) ≤ 0) :=
  ⟨rfl, by decide⟩

/-- Claim C6 (counterexample): on a full channel (capacity 1, one queued
command) the bridge's metric send suspends awaiting capacity — it does not
complete by dropping the update, which is what the claimed `try_send`
behaviour (`try_send_drop`) would do. -/
theorem C6_counterexample :
    bridge_metric_send 1 [OverlayCommand.Shutdown] [] = SendResult.pending ∧
    try_send_drop 1 [OverlayCommand.Shutdown]
        (OverlayCommand.UpdateData (OverlayData.Metrics [])) = [OverlayCommand.Shutdown] :=
  ⟨rfl, rfl⟩

/-- Claim C9 (counterexample): a `ProgressBar` whose `value` is NaN (and
`max_value` is 1) yields `progress = NaN`, which is not a value in
`[0.0, 1.0]` — `clamp` propagates NaN. -/
theorem C9_counterexample :
    ProgressBar.progress pbNan = F64.nan ∧ inUnitInterval (ProgressBar.progress pbNan) = false :=
  ⟨rfl, rfl⟩

/-- Shared helper: a parsed line's event carries the line number it was
parsed with. -/
theorem parse_line_lineNumber {n : Nat} {l : Str} {e : CombatEvent}
    (h : parse_line n l = some e) : e.line_number = n := by
  unfold parse_line at h
  split at h
  · exact absurd h (by simp)
  · split at h
    · exact absurd h (by simp)
    · injection h with h
      subst h
      rfl

/-- Shared helper: wrapping `u8` subtraction of the digit base from an ASCII
digit byte is plain subtraction. -/
theorem wsub8_digit {b : Nat} (h1 : 48 ≤ b) (h2 : b ≤ 57) : wsub8 b 48 = b - 48 := by
  unfold wsub8
  omega

/-- Claim C2 (amended): the parser never range-checks the digit bytes; when
those nine positions do hold ASCII digits, the produced fields satisfy
`hour, minute, second ∈ [0, 99]` and `millis ∈ [0, 999]` (the `[0,23]` /
`[0,59]` bounds of the claim do not hold, see the counterexample). -/
theorem C2_amended_theorem : ∀ (input rem : Str) (ts : Timestamp),
    parse_timestamp input = some (rem, ts) →
    (isDigit (input.getD 1 0) && isDigit (input.getD 2 0) && isDigit (input.getD 4 0) &&
     isDigit (input.getD 5 0) && isDigit (input.getD 7 0) && isDigit (input.getD 8 0) &&
     isDigit (input.getD 10 0) && isDigit (input.getD 11 0) && isDigit (input.getD 12 0)) = true →
    ts.hour ≤ 99 ∧ ts.minute ≤ 99 ∧ ts.second ≤ 99 ∧ ts.millis ≤ 999 := by
  intro input rem ts h hd
  simp only [Bool.and_eq_true, isDigit, decide_eq_true_eq] at hd
  obtain ⟨⟨⟨⟨⟨⟨⟨⟨h1, h2⟩, h4⟩, h5⟩, h7⟩, h8⟩, h10⟩, h11⟩, h12⟩ := hd
  unfold parse_timestamp at h
  split at h
  · exact absurd h (by simp)
  · injection h with h
    injection h with hrem hts
    subst hts
    rw [wsub8_digit h1.1 h1.2, wsub8_digit h2.1 h2.2, wsub8_digit h4.1 h4.2,
      wsub8_digit h5.1 h5.2, wsub8_digit h7.1 h7.2, wsub8_digit h8.1 h8.2,
      wsub8_digit h10.1 h10.2, wsub8_digit h11.1 h11.2, wsub8_digit h12.1 h12.2]
    refine ⟨?_, ?_, ?_, ?_⟩ <;> · show _ % _ ≤ _
                                  rw [Nat.mod_eq_of_lt (by omega)]
                                  omega

/-- Claim C2 (witness): the amended bounds at the concrete well-formed input
`"[19:02:15.300]"`. -/
theorem C2_amended_witness :
    (⟨19, 2, 15, 300⟩ : Timestamp).hour ≤ 99 ∧ (⟨19, 2, 15, 300⟩ : Timestamp).minute ≤ 99 ∧
    (⟨19, 2, 15, 300⟩ : Timestamp).second ≤ 99 ∧ (⟨19, 2, 15, 300⟩ : Timestamp).millis ≤ 999 :=
  C2_amended_theorem (strBytes c2goodLine) [] ⟨19, 2, 15, 300⟩ rfl (by decide)

/-- Claim C3 (amended): the entity parser does guarantee `class_id = 0` for
every `Player` entity it produces (both at the `parse_entity` and the
`parse_entity_name_id` level); the claimed non-empty name and nonzero
`log_id` do not hold (see the counterexample). -/
theorem C3_amended_theorem :
    (∀ (input rem : Str) (e : Entity), parse_entity input = some (rem, e) →
      e.entity_type = EntityType.Player → e.class_id = 0) ∧
    (∀ (input nm : Str) (cid lid : Int) (ty : EntityType),
      parse_entity_name_id input = some (nm, cid, lid, ty) →
      ty = EntityType.Player → cid = 0) := by
  have hni : ∀ (input nm : Str) (cid lid : Int) (ty : EntityType),
      parse_entity_name_id input = some (nm, cid, lid, ty) →
      ty = EntityType.Player → cid = 0 := by
    intro input nm cid lid ty h hty
    subst hty
    unfold parse_entity_name_id at h
    repeat' split at h
    all_goals simp_all
  refine ⟨?_, hni⟩
  intro input rem e h hty
  unfold parse_entity at h
  split at h
  · exact absurd h (by simp)
  · split at h
    · injection h with h
      injection h with h1 h2
      subst h2
      exact absurd hty (by simp [Entity.default])
    · split at h
      · injection h with h
        injection h with h1 h2
        subst h2
        exact absurd hty (by simp [Entity.default])
      · split at h
        · exact absurd h (by simp)
        · split at h
          · exact absurd h (by simp)
          · rename_i first_pipe _ name class_id log_id entity_type hnid
            injection h with h
            injection h with h1 h2
            subst h2
            exact hni _ _ _ _ _ hnid hty

/-- Claim C3 (witness): the `class_id = 0` guarantee applied at the concrete
input `" [@#x|]"`. -/
theorem C3_amended_witness :
    ({ Entity.default with entity_type := EntityType.Player } : Entity).class_id = 0 :=
  C3_amended_theorem.1 (strBytes c3line) (strBytes c3rem)
    { Entity.default with entity_type := EntityType.Player } rfl rfl

/-- Shared helper: every event parsed out of `enumFrom k` has line number at
least `k + 1`. -/
theorem lineNumber_lb : ∀ (ls : List Str) (k : Nat) (e : CombatEvent),
    e ∈ (List.enumFrom k ls).filterMap (fun p => parse_line (p.1 + 1) p.2) →
    k + 1 ≤ e.line_number := by
  intro ls
  induction ls with
  | nil => intro k e h; simp [List.enumFrom] at h
  | cons a as ih =>
    intro k e h
    simp only [List.enumFrom, List.filterMap_cons] at h
    cases hp : parse_line (k + 1) a with
    | none =>
      rw [hp] at h
      have := ih (k + 1) e h
      omega
    | some e0 =>
      rw [hp] at h
      rcases List.mem_cons.mp h with rfl | h2
      · rw [parse_line_lineNumber hp]
      · have := ih (k + 1) e h2
        omega

/-- Shared helper: the line numbers of the events parsed out of `enumFrom k`
are strictly increasing. -/
theorem pairwise_lineNumbers : ∀ (ls : List Str) (k : Nat),
    List.Pairwise (· < ·)
      (((List.enumFrom k ls).filterMap (fun p => parse_line (p.1 + 1) p.2)).map
        (fun e => e.line_number)) := by
  intro ls
  induction ls with
  | nil => intro k; simp [List.enumFrom]
  | cons a as ih =>
    intro k
    simp only [List.enumFrom, List.filterMap_cons]
    cases hp : parse_line (k + 1) a with
    | none => exact ih (k + 1)
    | some e0 =>
      simp only [List.map_cons]
      refine List.Pairwise.cons ?_ (ih (k + 1))
      intro b hb
      simp only [List.mem_map] at hb
      obtain ⟨e, he, rfl⟩ := hb
      have hlb := lineNumber_lb as (k + 1) e he
      have heq := parse_line_lineNumber hp
      omega

/-- Claim C5: for every file, the sequence of `line_number` fields of the
events returned by `parse_log_file`, in output order, is strictly
increasing. -/
theorem C5_theorem : ∀ bytes : Str,
    List.Pairwise (· < ·) ((parse_log_file bytes).map (fun e => e.line_number)) := by
  intro bytes
  exact pairwise_lineNumbers (nonEmptyLines bytes) 0

/-- Shared helper: every event parsed out of `enumFrom k` comes from some
line of the list, at the matching offset. -/
theorem mem_parsed_enumFrom : ∀ (ls : List Str) (k : Nat) (e : CombatEvent),
    e ∈ (List.enumFrom k ls).filterMap (fun p => parse_line (p.1 + 1) p.2) →
    ∃ i l, ls.get? i = some l ∧ parse_line (k + i + 1) l = some e := by
  intro ls
  induction ls with
  | nil => intro k e h; simp [List.enumFrom] at h
  | cons a as ih =>
    intro k e h
    simp only [List.enumFrom, List.filterMap_cons] at h
    cases hp : parse_line (k + 1) a with
    | none =>
      rw [hp] at h
      obtain ⟨i, l, h1, h2⟩ := ih (k + 1) e h
      refine ⟨i + 1, l, by simpa using h1, ?_⟩
      rw [show k + (i + 1) + 1 = k + 1 + i + 1 from by omega]
      exact h2
    | some e0 =>
      rw [hp] at h
      rcases List.mem_cons.mp h with rfl | h2
      · exact ⟨0, a, rfl, hp⟩
      · obtain ⟨i, l, h1, h3⟩ := ih (k + 1) e h2
        refine ⟨i + 1, l, by simpa using h1, ?_⟩
        rw [show k + (i + 1) + 1 = k + 1 + i + 1 from by omega]
        exact h3

/-- Claim C4 (amended): each event returned by `parse_log_file` carries the
1-based position of its line among the *non-empty* lines of the file (blank
lines are skipped before numbering, so they are not counted; failed lines
are counted since they still occupy an index). -/
theorem C4_amended_theorem : ∀ (bytes : Str) (e : CombatEvent),
    e ∈ parse_log_file bytes →
    ∃ i l, (nonEmptyLines bytes).get? i = some l ∧
      e.line_number = i + 1 ∧ parse_line (i + 1) l = some e := by
  intro bytes e h
  obtain ⟨i, l, h1, h2⟩ := mem_parsed_enumFrom (nonEmptyLines bytes) 0 e h
  rw [show 0 + i + 1 = i + 1 from by omega] at h2
  exact ⟨i, l, h1, parse_line_lineNumber h2, h2⟩

/-- Claim C4 (witness): the amended numbering at the concrete two-event file
with a blank middle line (the second event sits at non-empty-line index 1,
so its line number is 2). -/
theorem C4_amended_witness :
    ∃ i l, (nonEmptyLines (strBytes c4file)).get? i = some l ∧
      ((parse_log_file (strBytes c4file)).getD 1 CombatEvent.default).line_number = i + 1 ∧
      parse_line (i + 1) l = some ((parse_log_file (strBytes c4file)).getD 1 CombatEvent.default) :=
  C4_amended_theorem (strBytes c4file) _ (by decide)

/-- Claim C4 (counterexample): on the file `"<evt>\n\n<evt>"` the returned
line numbers are `[1, 2]`, whereas numbering by position among *all*
newline-delimited lines (`parse_log_file_claimed`, the claim's reading) gives
`[1, 3]` — the second event's line is the third line of the file. -/
theorem C4_counterexample :
    (parse_log_file (strBytes c4file)).map (fun e => e.line_number) = [1, 2] ∧
    (parse_log_file_claimed (strBytes c4file)).map (fun e => e.line_number) = [1, 3] ∧
    parse_log_file (strBytes c4file) ≠ parse_log_file_claimed (strBytes c4file) :=
  ⟨rfl, rfl, by decide⟩

/-- Claim C6 (amended): the bridge's metric send is an awaiting send — when
the channel has spare capacity the update is enqueued and the send completes,
and when the channel is full the send suspends awaiting capacity; the update
is *not* dropped (the claim's drop-on-full `try_send` is not what the code
does, see the counterexample). -/
theorem C6_amended_theorem :
    ∀ (cap : Nat) (q : List OverlayCommand) (entries : List MeterEntry),
      (bridge_metric_send cap q entries = SendResult.pending ↔ cap ≤ q.length) ∧
      (bridge_metric_send cap q entries =
          SendResult.delivered (q ++ [OverlayCommand.UpdateData (OverlayData.Metrics entries)])
        ↔ q.length < cap) := by
  intro cap q entries
  unfold bridge_metric_send awaitSendStep
  by_cases h : q.length < cap
  · rw [if_pos h]
    exact ⟨⟨fun he => absurd he (by simp), fun hle => absurd hle (by omega)⟩,
      ⟨fun _ => h, fun _ => rfl⟩⟩
  · rw [if_neg h]
    exact ⟨⟨fun _ => by omega, fun _ => rfl⟩,
      ⟨fun he => absurd he (by simp), fun hlt => absurd hlt h⟩⟩

/-- Claim C7 (amended): every `MeterEntry` emitted by
`create_entries_for_type` carries as `max_value` exactly
`iter().max().unwrap_or(0)` of the snapshot's values for the kind — the
plain maximum, 0 when the snapshot is empty, with *no* lower bound of 1
(division by zero is instead avoided downstream, where the renderer folds
the maxima with 1 and `ProgressBar::progress` guards `max_value <= 0`). -/
theorem C7_amended_theorem :
    ∀ (t : MetricType) (ms : List PlayerMetrics) (e : MeterEntry),
      e ∈ create_entries_for_type t ms →
      e.max_value = maxOrZero (ms.map (metric_value t)) := by
  intro t ms e he
  cases t <;>
  · simp only [create_entries_for_type, List.mem_map] at he
    obtain ⟨p, -, rfl⟩ := he
    rfl

/-- Claim C7 (witness): the amended max-value equation at the concrete
all-zero snapshot. -/
theorem C7_amended_witness :
    ((create_entries_for_type MetricType.Dps [pm0]).getD 0 (MeterEntry.new [] 0 0)).max_value
      = maxOrZero ([pm0].map (metric_value MetricType.Dps)) :=
  C7_amended_theorem MetricType.Dps [pm0] _ (by decide)

/-- Shared helper: a key found by `lookupKey` resolves to the string it was
looked up with. -/
theorem lookupKey_getD : ∀ (st : List Str) (s : Str) (k : Nat),
    lookupKey st s = some k → st.getD k [] = s := by
  intro st
  induction st with
  | nil => intro s k h; simp [lookupKey] at h
  | cons t ts ih =>
    intro s k h
    unfold lookupKey at h
    split at h
    · injection h with h
      subst h
      simpa using ‹t = s›
    · rcases Option.map_eq_some'.mp h with ⟨k0, hk0, hk⟩
      subst hk
      simpa using ih s k0 hk0

/-- Shared helper: appending entries on the right preserves existing keys. -/
theorem lookupKey_append : ∀ (st ext : List Str) (s : Str) (k : Nat),
    lookupKey st s = some k → lookupKey (st ++ ext) s = some k := by
  intro st
  induction st with
  | nil => intro ext s k h; simp [lookupKey] at h
  | cons t ts ih =>
    intro ext s k h
    unfold lookupKey at h
    simp only [List.cons_append, lookupKey, List.append_eq]
    split at h
    · rwa [if_pos ‹t = s›]
    · rw [if_neg ‹¬ t = s›]
      rcases Option.map_eq_some'.mp h with ⟨k0, hk0, hk⟩
      subst hk
      rw [ih ext s k0 hk0]
      rfl

/-- Shared helper: a fresh string appended at the end is found at the old
length. -/
theorem lookupKey_append_self : ∀ (st : List Str) (s : Str),
    lookupKey st s = none → lookupKey (st ++ [s]) s = some st.length := by
  intro st
  induction st with
  | nil => intro s _; simp [lookupKey]
  | cons t ts ih =>
    intro s h
    unfold lookupKey at h
    simp only [List.cons_append, lookupKey, List.append_eq]
    split at h
    · exact absurd h (by simp)
    · rw [if_neg ‹¬ t = s›]
      rw [ih s (Option.map_eq_none'.mp h)]
      rfl

/-- Shared helper: `get_or_intern` only ever appends to the dictionary. -/
theorem get_or_intern_append (st : List Str) (s : Str) :
    ∃ ext, (get_or_intern st s).1 = st ++ ext := by
  unfold get_or_intern
  cases h : lookupKey st s with
  | some k => exact ⟨[], by simp⟩
  | none => exact ⟨[s], rfl⟩

/-- Shared helper: a whole sequence of interns only ever appends. -/
theorem internAll_append : ∀ (ss : List Str) (st : List Str),
    ∃ ext, internAll st ss = st ++ ext := by
  intro ss
  induction ss with
  | nil => intro st; exact ⟨[], by simp [internAll]⟩
  | cons s ss ih =>
    intro st
    obtain ⟨e1, h1⟩ := get_or_intern_append st s
    obtain ⟨e2, h2⟩ := ih (get_or_intern st s).1
    exact ⟨e1 ++ e2, by rw [internAll, h2, h1, List.append_assoc]⟩

/-- Shared helper: right after interning `s`, the dictionary maps `s` to the
returned key. -/
theorem intern_found (st : List Str) (s : Str) :
    lookupKey (intern st s).1 s = some (intern st s).2 := by
  unfold intern get_or_intern
  cases h : lookupKey st s with
  | some k => simpa using h
  | none => simpa using lookupKey_append_self st s h

/-- Shared helper: interning a string the dictionary already maps returns
the mapped key. -/
theorem intern_of_found {st : List Str} {s : Str} {k : Nat}
    (h : lookupKey st s = some k) : (intern st s).2 = k := by
  unfold intern get_or_intern
  rw [h]

/-- Claim C8: interning is stable — after `intern st s` and any further
interns, interning the same byte sequence `s` again returns the same key,
and `resolve` of that key returns exactly `s`. -/
theorem C8_theorem : ∀ (st : List Str) (s : Str) (others : List Str),
    (intern (internAll (intern st s).1 others) s).2 = (intern st s).2 ∧
    resolve (internAll (intern st s).1 others) (intern st s).2 = s := by
  intro st s others
  obtain ⟨ext, hext⟩ := internAll_append others (intern st s).1
  have hk : lookupKey (internAll (intern st s).1 others) s = some (intern st s).2 := by
    rw [hext]
    exact lookupKey_append _ _ _ _ (intern_found st s)
  exact ⟨intern_of_found hk, lookupKey_getD _ _ _ hk⟩

/-- Claim C9 (amended): for every `ProgressBar` whose `value` and
`max_value` are finite (not NaN, not an infinity), `progress` is total and
lies in `[0, 1]`: it is 0 when `max_value ≤ 0` (no division occurs), and
otherwise the clamped quotient; with NaN inputs the result is NaN (see the
counterexample). -/
theorem C9_amended_theorem :
    ∀ (pb : ProgressBar) (qv qm : ℚ),
      pb.value = F64.finite qv → pb.max_value = F64.finite qm →
      inUnitInterval pb.progress = true ∧ (qm ≤ 0 → pb.progress = F64.finite 0) := by
  intro pb qv qm hv hm
  unfold ProgressBar.progress
  rw [hv, hm]
  by_cases h : qm ≤ 0
  · rw [if_pos (by simp [F64.le, h])]
    exact ⟨by simp [inUnitInterval], fun _ => rfl⟩
  · rw [if_neg (by simp [F64.le, h])]
    have hne : qm ≠ 0 := fun h0 => h (le_of_eq h0)
    refine ⟨?_, fun hq => absurd hq h⟩
    simp only [F64.div, hne, if_false, F64.clamp01, inUnitInterval, decide_eq_true_eq]
    exact ⟨le_min zero_le_one (le_max_left 0 _), min_le_left 1 _⟩

/-- Claim C9 (witness): the amended bounds at the concrete bar with value
1/2 and max 1. -/
theorem C9_amended_witness :
    inUnitInterval pbHalf.progress = true ∧ ((1 : ℚ) ≤ 0 → pbHalf.progress = F64.finite 0) :=
  C9_amended_theorem pbHalf (1 / 2) 1 rfl rfl

end Baras
